import Mathlib

/-!
Shallow embedding of the relay controller from `4port/relayapi.py`
(fadhillaxl/relaypi).

The Python module keeps global mutable state (`relay_states`,
`emergency_stop`, `gpio_initialized`), drives GPIO pins through
`RPi.GPIO`, and schedules fire-and-forget asyncio tasks
(`asyncio.create_task`, `BackgroundTasks.add_task`).  The embedding
threads that state explicitly through a `Sys` record:

* GPIO is a table of pin levels plus a per-pin write-fault flag; a
  faulting pin makes `GPIO.output` raise, which the embedding renders
  as an error value.  `GPIO.input` is modelled as total (reads succeed).
* Every call of `asyncio.create_task(broadcast_status())` is counted in
  `Sys.broadcasts`: it is the number of notifications scheduled to the
  event feed of the websocket broadcaster.
* Fire-and-forget tasks that are still pending (the delayed auto-off of
  `/relay/on` with a duration, the suspended tail of `/relay/pulse`,
  and a queued `/sequence` run) are kept in `Sys.pending`; running such
  a task is modelled by `fire_task`.
* Durations are rationals (the Python floats are only compared and
  summed in the claims under scrutiny).
* HTTP error responses (`HTTPException`) become `ApiErr` values.
-/

/-- GPIO electrical level, as in `RPi.GPIO`.  For the relay board,
LOW energizes a relay (ON) and HIGH releases it (OFF). -/
inductive Level
  | LOW
  | HIGH
deriving DecidableEq, Repr

/-- Conversion used throughout the source: a pin level read back from
hardware is reported as relay state `true` exactly when the level is LOW. -/
def levelToState : Level → Bool
  | Level.LOW => true
  | Level.HIGH => false

/-- String rendering of a level, used in the `/sync` change report. -/
def levelName : Level → String
  | Level.LOW => "LOW"
  | Level.HIGH => "HIGH"

/-- State of the GPIO subsystem: the level of every pin, plus a fault
model saying which pins raise on `GPIO.output`. -/
structure GpioSt where
  pin : Nat → Level
  writeFails : Nat → Bool

/-- Pointwise update of a pin-level table. -/
def updPin (f : Nat → Level) (p : Nat) (lvl : Level) : Nat → Level :=
  fun q => if q = p then lvl else f q

/-- Model of `GPIO.output(pin, lvl)`: fails on a faulting pin, otherwise sets the
level of that pin. -/
def GPIO_output (g : GpioSt) (p : Nat) (lvl : Level) : Except Unit GpioSt :=
  if g.writeFails p = true then Except.error ()
  else Except.ok { pin := updPin g.pin p lvl, writeFails := g.writeFails }

/-- Model of `GPIO.input(pin)`: read the current level of a pin. -/
def GPIO_input (g : GpioSt) (p : Nat) : Level := g.pin p

/-- One entry of the `RELAY_NAMES` configuration table: BCM pin and
display name. -/
structure RelayInfo where
  pin : Nat
  name : String
deriving DecidableEq, Repr

/-- The static relay registry of the source:
relay 1 on pin 2, relay 2 on pin 3, relay 3 on pin 4, relay 4 on pin 17. -/
def RELAY_NAMES : List (Nat × RelayInfo) :=
  [(1, ⟨2, "Relay 1"⟩), (2, ⟨3, "Relay 2"⟩), (3, ⟨4, "Relay 3"⟩), (4, ⟨17, "Relay 4"⟩)]

/-- The `HTTPException` payloads the module raises. -/
inductive ApiErr
  | notInitialized
  | invalidRelay
  | hardwareFault
  | durationRequired
  | emergencyStopFailed
deriving DecidableEq, Repr

/-- One step of a `/sequence` request: relay id, target state, duration
in seconds (validated by pydantic to lie in [0.1, 60]). -/
structure SeqStep where
  relay_id : Nat
  state : Bool
  duration : ℚ
deriving DecidableEq, Repr

/-- A fire-and-forget asyncio task that has been scheduled but has not
run yet: the delayed `set_relay_state(id, False)` armed by `/relay/on`
with a duration (also the suspended off-half of `/relay/pulse`), or a
queued `/sequence` background run. -/
inductive PendTask
  | delayed_off (relay_id : Nat)
  | seq_run (steps : List SeqStep) (repeats : Nat)
deriving DecidableEq, Repr

/-- Observable events of a background execution: a hardware write of a
relay, or an `asyncio.sleep` of a duration. -/
inductive Ev
  | write (relay_id : Nat) (state : Bool)
  | sleep (duration : ℚ)
deriving DecidableEq, Repr

/-- The global mutable state of the module: the `relay_states` dict,
the `emergency_stop` and `gpio_initialized` flags, the GPIO subsystem,
the count of scheduled `broadcast_status` notifications, and the
pending fire-and-forget tasks. -/
structure Sys where
  relay_states : Nat → Bool
  emergency_stop : Bool
  gpio_initialized : Bool
  gpio : GpioSt
  broadcasts : Nat
  pending : List PendTask

/-- Pointwise update of the relay-state table (a dict assignment). -/
def updState (f : Nat → Bool) (id : Nat) (b : Bool) : Nat → Bool :=
  fun i => if i = id then b else f i

/-- Model of `set_relay_state(relay_id, state)`: rejects when GPIO is not
initialized, rejects an unknown relay id before touching hardware,
then writes the line (LOW for ON, HIGH for OFF); only after a
successful write does it update `relay_states` and schedule one
`broadcast_status` notification.  A failing write raises and leaves
the stored state untouched. -/
def set_relay_state (relay_id : Nat) (state : Bool) (s : Sys) : Sys × Option ApiErr :=
  if s.gpio_initialized = false then (s, some ApiErr.notInitialized)
  else
    match RELAY_NAMES.lookup relay_id with
    | none => (s, some ApiErr.invalidRelay)
    | some info =>
      match GPIO_output s.gpio info.pin (if state then Level.LOW else Level.HIGH) with
      | Except.error _ => (s, some ApiErr.hardwareFault)
      | Except.ok g =>
        ({ relay_states := updState s.relay_states relay_id state,
           emergency_stop := s.emergency_stop,
           gpio_initialized := s.gpio_initialized,
           gpio := g,
           broadcasts := s.broadcasts + 1,
           pending := s.pending }, none)

/-- Handler of `POST /relay/on`: turn the relay ON; when a duration is given,
additionally schedule a fire-and-forget `turn_off_after_delay` task.
The source never cancels a previously armed task. -/
def turn_relay_on (relay_id : Nat) (duration : Option ℚ) (s : Sys) : Sys × Option ApiErr :=
  match set_relay_state relay_id true s with
  | (s1, some e) => (s1, some e)
  | (s1, none) =>
    match duration with
    | some _ =>
      ({ s1 with pending := s1.pending ++ [PendTask.delayed_off relay_id] }, none)
    | none => (s1, none)

/-- Handler of `POST /relay/off`: turn the relay OFF. -/
def turn_relay_off (relay_id : Nat) (s : Sys) : Sys × Option ApiErr :=
  set_relay_state relay_id false s

/-- Handler of `POST /relay/toggle`: read the current stored state and set the
negation. -/
def toggle_relay (relay_id : Nat) (s : Sys) : Sys × Option ApiErr :=
  set_relay_state relay_id (!(s.relay_states relay_id)) s

/-- Handler of `POST /relay/pulse`: requires a duration, turns the relay ON, then
awaits the duration before turning it OFF.  The handler suspends at the
await; the still-to-run OFF half is modelled as a pending task. -/
def pulse_relay (relay_id : Nat) (duration : Option ℚ) (s : Sys) : Sys × Option ApiErr :=
  match duration with
  | none => (s, some ApiErr.durationRequired)
  | some _ =>
    match set_relay_state relay_id true s with
    | (s1, some e) => (s1, some e)
    | (s1, none) =>
      ({ s1 with pending := s1.pending ++ [PendTask.delayed_off relay_id] }, none)

/-- The loop body of `sync_gpio_states`: for each registry entry, read
the pin, convert the level to a relay state, and update the stored
state when it differs, remembering that a change was detected. -/
def sync_gpio_loop : List (Nat × RelayInfo) → Bool → Sys → Bool × Sys
  | [], changed, s => (changed, s)
  | e :: rest, changed, s =>
    let actual := levelToState (GPIO_input s.gpio e.2.pin)
    if s.relay_states e.1 ≠ actual then
      sync_gpio_loop rest true
        { s with relay_states := updState s.relay_states e.1 actual }
    else sync_gpio_loop rest changed s

/-- Model of `sync_gpio_states()`: silently returns `false` when GPIO is not
initialized, otherwise reads every registered pin back and folds the
observed state into `relay_states`, reporting whether anything changed.
It schedules no notification by itself. -/
def sync_gpio_states (s : Sys) : Bool × Sys :=
  if s.gpio_initialized = false then (false, s)
  else sync_gpio_loop RELAY_NAMES false s

/-- One relay entry of a status snapshot. -/
structure StatusRelayEntry where
  relay_id : Nat
  name : String
  pin : Nat
  state : Bool
  status : String
deriving DecidableEq, Repr

/-- The JSON-shaped status payload (the volatile timestamp field is
omitted from the embedding). -/
structure StatusResp where
  relays : List StatusRelayEntry
  emergency_stop : Bool
  gpio_initialized : Bool
deriving DecidableEq, Repr

/-- The status dictionary built identically in `get_status`,
`broadcast_status` and the websocket `send_status`. -/
def status_snapshot (s : Sys) : StatusResp :=
  ⟨RELAY_NAMES.map (fun e =>
      ⟨e.1, e.2.name, e.2.pin, s.relay_states e.1,
        if s.relay_states e.1 then "ON" else "OFF"⟩),
    s.emergency_stop, s.gpio_initialized⟩

/-- Handler of `GET /status`: first syncs the stored states with the GPIO pins
(this can mutate `relay_states`), then returns the snapshot.  No
broadcast is scheduled on this path. -/
def get_status (s : Sys) : StatusResp × Sys :=
  let r := sync_gpio_states s
  (status_snapshot r.2, r.2)

/-- One entry of the `/sync` change report. -/
structure SyncChange where
  relay_id : Nat
  pin : Nat
  old_state : Bool
  new_state : Bool
  gpio_level : String
deriving DecidableEq, Repr

/-- The `/sync` response body (timestamp omitted). -/
structure SyncResp where
  message : String
  changes : List SyncChange
  total_changes : Nat
deriving DecidableEq, Repr

/-- The loop body of `/sync`: like `sync_gpio_loop` but additionally
appends one change record per updated relay, in registry order. -/
def sync_loop : List (Nat × RelayInfo) → List SyncChange → Sys → List SyncChange × Sys
  | [], acc, s => (acc, s)
  | e :: rest, acc, s =>
    let old_state := s.relay_states e.1
    let lvl := GPIO_input s.gpio e.2.pin
    let actual := levelToState lvl
    if old_state ≠ actual then
      sync_loop rest (acc ++ [⟨e.1, e.2.pin, old_state, actual, levelName lvl⟩])
        { s with relay_states := updState s.relay_states e.1 actual }
    else sync_loop rest acc s

/-- Handler of `POST /sync`: rejects when GPIO is not initialized, otherwise folds
every pin reading into the stored state, collecting one change record
per relay that diverged; when the change list is nonempty it schedules
exactly one `broadcast_status` notification for the whole pass. -/
def sync_states (s : Sys) : Except ApiErr (SyncResp × Sys) :=
  if s.gpio_initialized = false then Except.error ApiErr.notInitialized
  else
    let r := sync_loop RELAY_NAMES [] s
    let s2 := if r.1 = [] then r.2 else { r.2 with broadcasts := r.2.broadcasts + 1 }
    Except.ok (⟨"GPIO states synchronized", r.1, r.1.length⟩, s2)

/-- A reply the websocket handler can produce for one inbound message:
a forced status snapshot, or a plain text message. -/
inductive WsReply
  | snapshot
  | text (msg : String)
deriving DecidableEq, Repr

/-- The inbound-message dispatch of the `/status/ws` handler:
`"get_status"` forces an immediate snapshot, `"ping"` answers
`"pong"`, and anything else is answered with the text prefixed by
`"Echo: "`. -/
def handle_ws_message (data : String) : WsReply :=
  if data = "get_status" then WsReply.snapshot
  else if data = "ping" then WsReply.text "pong"
  else WsReply.text ("Echo: " ++ data)

/-- A `/sequence` request body: validated steps and a repetition count. -/
structure RelaySequence where
  steps : List SeqStep
  repeats : Nat
deriving DecidableEq, Repr

/-- The immediate `/sequence` response body (sent before any step of
the sequence has run). -/
structure SeqResp where
  message : String
  steps : Nat
  repetitions : Nat
  estimated_duration : ℚ
deriving DecidableEq, Repr

/-- The body of the background `execute_sequence` inner loop: write
the relay of each step, then await the step duration, stopping at the first
raised error (the outer `try` swallows it after logging). -/
def execute_steps : List SeqStep → Sys → Sys × List Ev × Bool
  | [], s => (s, [], true)
  | st :: rest, s =>
    match set_relay_state st.relay_id st.state s with
    | (s1, some _) => (s1, [], false)
    | (s1, none) =>
      let r := execute_steps rest s1
      (r.1, Ev.write st.relay_id st.state :: Ev.sleep st.duration :: r.2.1, r.2.2)

/-- The outer repetition loop of `execute_sequence`. -/
def execute_repeat : Nat → List SeqStep → Sys → Sys × List Ev × Bool
  | 0, _, s => (s, [], true)
  | n + 1, steps, s =>
    match execute_steps steps s with
    | (s1, evs, true) =>
      let r := execute_repeat n steps s1
      (r.1, evs ++ r.2.1, r.2.2)
    | (s1, evs, false) => (s1, evs, false)

/-- Handler of `POST /sequence`: queues the background run and returns at once
with a summary (message, step count, repetitions, estimated duration).
The response carries no run identifier and no completion status. -/
def run_sequence (seq : RelaySequence) (s : Sys) : SeqResp × Sys :=
  (⟨"Sequence started with " ++ toString seq.steps.length ++ " steps, "
      ++ toString seq.repeats ++ " repetitions",
    seq.steps.length, seq.repeats,
    (seq.steps.map SeqStep.duration).sum * (seq.repeats : ℚ)⟩,
   { s with pending := s.pending ++ [PendTask.seq_run seq.steps seq.repeats] })

/-- Running one pending fire-and-forget task: the delayed auto-off
calls `set_relay_state(id, False)` (its possible failure is only
logged), a queued sequence run executes its repetition loop. -/
def fire_task (t : PendTask) (s : Sys) : Sys × List Ev :=
  match t with
  | PendTask.delayed_off relay_id => ((set_relay_state relay_id false s).1, [])
  | PendTask.seq_run steps n =>
    let r := execute_repeat n steps s
    (r.1, r.2.1)

/-- The shared loop of `/all/on`, `/all/off` and `/emergency/stop`:
`set_relay_state` on every registry entry in order; the first raised
error propagates and aborts the loop, keeping the mutations already
made. -/
def set_all_loop : List (Nat × RelayInfo) → Bool → Sys → Sys × Option ApiErr
  | [], _, s => (s, none)
  | e :: rest, b, s =>
    match set_relay_state e.1 b s with
    | (s1, some err) => (s1, some err)
    | (s1, none) => set_all_loop rest b s1

/-- Handler of `POST /all/on`. -/
def turn_all_on (s : Sys) : Sys × Option ApiErr :=
  set_all_loop RELAY_NAMES true s

/-- Handler of `POST /all/off`. -/
def turn_all_off (s : Sys) : Sys × Option ApiErr :=
  set_all_loop RELAY_NAMES false s

/-- Handler of `POST /emergency/stop`: turns every relay OFF in registry order
inside a `try` that maps any raised error to a generic failure
response.  It touches neither the `emergency_stop` flag nor the
pending task list. -/
def emergency_stop_all (s : Sys) : Sys × Option ApiErr :=
  match set_all_loop RELAY_NAMES false s with
  | (s1, some _) => (s1, some ApiErr.emergencyStopFailed)
  | (s1, none) => (s1, none)

/-- Specification-side expected event list of one pass over a step
list: each step contributes its write followed by its sleep. -/
def steps_trace : List SeqStep → List Ev
  | [] => []
  | st :: rest => Ev.write st.relay_id st.state :: Ev.sleep st.duration :: steps_trace rest

/-- Specification-side expected event list of a whole sequence run:
`n` repetitions of the step-list pass, in order. -/
def seq_trace : Nat → List SeqStep → List Ev
  | 0, _ => []
  | n + 1, steps => steps_trace steps ++ seq_trace n steps

/-- A sequence step is executable on a state: its relay id is
registered and the corresponding pin does not fault on write. -/
def stepOk (s : Sys) (st : SeqStep) : Bool :=
  match RELAY_NAMES.lookup st.relay_id with
  | none => false
  | some info => !(s.gpio.writeFails info.pin)

/-- Specification-side expected `/sync` change report: one record per
registry entry whose stored state differs from the level read back. -/
def driftList (s : Sys) : List (Nat × RelayInfo) → List SyncChange
  | [] => []
  | e :: rest =>
    let lvl := GPIO_input s.gpio e.2.pin
    let actual := levelToState lvl
    if s.relay_states e.1 ≠ actual then
      ⟨e.1, e.2.pin, s.relay_states e.1, actual, levelName lvl⟩ :: driftList s rest
    else driftList s rest

/-- The state update both sync loops perform on one drifted registry
entry: store the state read back from the pin of that entry. -/
def syncUpd (s : Sys) (e : Nat × RelayInfo) : Sys :=
  { s with relay_states := updState s.relay_states e.1 (levelToState (GPIO_input s.gpio e.2.pin)) }

/-- Scheduling one more `broadcast_status` notification. -/
def bumpBroadcast (s : Sys) : Sys :=
  { s with broadcasts := s.broadcasts + 1 }

/-- N-fold repetition of `toggle_relay` on one relay, with no
interleaved command. -/
def iterate_toggle : Nat → Nat → Sys → Sys
  | 0, _, s => s
  | n + 1, relay_id, s => iterate_toggle n relay_id (toggle_relay relay_id s).1

/-- None of the four configured relay pins faults on write. -/
def pinsOk (s : Sys) : Prop :=
  s.gpio.writeFails 2 = false ∧ s.gpio.writeFails 3 = false ∧
    s.gpio.writeFails 4 = false ∧ s.gpio.writeFails 17 = false

/-- Nominal healthy state: GPIO initialized, all relays OFF and all
pins HIGH, no faults, nothing pending. -/
def s0 : Sys :=
  { relay_states := fun _ => false,
    emergency_stop := false,
    gpio_initialized := true,
    gpio := { pin := fun _ => Level.HIGH, writeFails := fun _ => false },
    broadcasts := 0,
    pending := [] }

/-- State for the emergency-stop counterexample: relay 2 is ON (its
pin 3 reads LOW) and a one-step sequence run that re-energizes relay 1
is queued but has not run yet. -/
def s_c1 : Sys :=
  { relay_states := updState (fun _ => false) 2 true,
    emergency_stop := false,
    gpio_initialized := true,
    gpio := { pin := updPin (fun _ => Level.HIGH) 3 Level.LOW,
              writeFails := fun _ => false },
    broadcasts := 0,
    pending := [PendTask.seq_run [⟨1, true, 1⟩] 1] }

/-- State whose pin 3 (relay 2) faults on write, all relays OFF. -/
def s_c3 : Sys :=
  { relay_states := fun _ => false,
    emergency_stop := false,
    gpio_initialized := true,
    gpio := { pin := fun _ => Level.HIGH, writeFails := fun p => p == 3 },
    broadcasts := 0,
    pending := [] }

/-- State with external drift: the stored state of relay 1 is OFF but
its pin 2 reads LOW (ON), as after a manual `raspi-gpio` actuation. -/
def s_c7 : Sys :=
  { relay_states := fun _ => false,
    emergency_stop := false,
    gpio_initialized := true,
    gpio := { pin := updPin (fun _ => Level.HIGH) 2 Level.LOW,
              writeFails := fun _ => false },
    broadcasts := 0,
    pending := [] }

/-- Drifted state used to instantiate the reconciliation theorem. -/
def s_c8 : Sys :=
  { relay_states := fun _ => false,
    emergency_stop := false,
    gpio_initialized := true,
    gpio := { pin := updPin (fun _ => Level.HIGH) 17 Level.LOW,
              writeFails := fun _ => false },
    broadcasts := 0,
    pending := [] }

/-- The two-step, twice-repeated example sequence from the spec:
relay 1 ON for 0.1 s, then relay 2 OFF for 0.1 s. -/
def exSeq : RelaySequence :=
  ⟨[⟨1, true, 1/10⟩, ⟨2, false, 1/10⟩], 2⟩

lemma updState_self (f : Nat → Bool) (id : Nat) (b : Bool) : updState f id b id = b := by
  simp [updState]

lemma updState_ne (f : Nat → Bool) (id i : Nat) (b : Bool) (h : i ≠ id) :
    updState f id b i = f i := by
  simp [updState, h]

lemma set_relay_invalid (relay_id : Nat) (b : Bool) (s : Sys)
    (hinit : s.gpio_initialized = true) (hlk : RELAY_NAMES.lookup relay_id = none) :
    set_relay_state relay_id b s = (s, some ApiErr.invalidRelay) := by
  simp [set_relay_state, hinit, hlk]

lemma set_relay_fault (relay_id : Nat) (b : Bool) (s : Sys) (info : RelayInfo)
    (hinit : s.gpio_initialized = true) (hlk : RELAY_NAMES.lookup relay_id = some info)
    (hw : s.gpio.writeFails info.pin = true) :
    set_relay_state relay_id b s = (s, some ApiErr.hardwareFault) := by
  simp [set_relay_state, hinit, hlk, GPIO_output, hw]

lemma set_relay_ok (relay_id : Nat) (b : Bool) (s : Sys) (info : RelayInfo)
    (hinit : s.gpio_initialized = true) (hlk : RELAY_NAMES.lookup relay_id = some info)
    (hw : s.gpio.writeFails info.pin = false) :
    set_relay_state relay_id b s =
      ({ relay_states := updState s.relay_states relay_id b,
         emergency_stop := s.emergency_stop,
         gpio_initialized := s.gpio_initialized,
         gpio := { pin := updPin s.gpio.pin info.pin (if b then Level.LOW else Level.HIGH),
                   writeFails := s.gpio.writeFails },
         broadcasts := s.broadcasts + 1,
         pending := s.pending }, none) := by
  simp [set_relay_state, hinit, hlk, GPIO_output, hw]

lemma set_relay_preserves (relay_id : Nat) (b : Bool) (s : Sys) :
    (set_relay_state relay_id b s).1.gpio_initialized = s.gpio_initialized
    ∧ (set_relay_state relay_id b s).1.gpio.writeFails = s.gpio.writeFails
    ∧ (set_relay_state relay_id b s).1.emergency_stop = s.emergency_stop
    ∧ (set_relay_state relay_id b s).1.pending = s.pending := by
  unfold set_relay_state
  split
  · exact ⟨rfl, rfl, rfl, rfl⟩
  · cases hlk : RELAY_NAMES.lookup relay_id with
    | none => simp
    | some info =>
      simp only []
      unfold GPIO_output
      by_cases hw : s.gpio.writeFails info.pin = true
      · simp [hw]
      · simp [hw]

lemma toggle_step (relay_id : Nat) (info : RelayInfo) (s : Sys)
    (hinit : s.gpio_initialized = true) (hlk : RELAY_NAMES.lookup relay_id = some info)
    (hw : s.gpio.writeFails info.pin = false) :
    (toggle_relay relay_id s).1.relay_states relay_id = !(s.relay_states relay_id)
    ∧ (toggle_relay relay_id s).1.gpio_initialized = true
    ∧ (toggle_relay relay_id s).1.gpio.writeFails = s.gpio.writeFails := by
  unfold toggle_relay
  rw [set_relay_ok relay_id _ s info hinit hlk hw]
  exact ⟨updState_self s.relay_states relay_id _, hinit, rfl⟩

lemma iterate_toggle_parity (n : Nat) (relay_id : Nat) (info : RelayInfo) (s : Sys)
    (hinit : s.gpio_initialized = true) (hlk : RELAY_NAMES.lookup relay_id = some info)
    (hw : s.gpio.writeFails info.pin = false) :
    (iterate_toggle n relay_id s).relay_states relay_id
      = Bool.xor (s.relay_states relay_id) (n % 2 == 1) := by
  induction n generalizing s with
  | zero => simp [iterate_toggle]
  | succ n ih =>
    have hstep := toggle_step relay_id info s hinit hlk hw
    have hw' : (toggle_relay relay_id s).1.gpio.writeFails info.pin = false := by
      rw [hstep.2.2]; exact hw
    have hrec := ih ((toggle_relay relay_id s).1) hstep.2.1 hw'
    show (iterate_toggle n relay_id (toggle_relay relay_id s).1).relay_states relay_id = _
    rw [hrec, hstep.1]
    have hmod : (((n + 1) % 2 == 1) : Bool) = !(n % 2 == 1) := by
      rcases Nat.mod_two_eq_zero_or_one n with h | h <;> simp [Nat.add_mod, h]
    rw [hmod]
    cases s.relay_states relay_id <;> cases hb : (n % 2 == 1 : Bool) <;> rfl

lemma driftList_congr (s t : Sys) (l : List (Nat × RelayInfo)) (hg : t.gpio = s.gpio)
    (hr : ∀ e ∈ l, t.relay_states e.1 = s.relay_states e.1) :
    driftList t l = driftList s l := by
  induction l with
  | nil => rfl
  | cons e rest ih =>
    have he := hr e (List.mem_cons_self e rest)
    have htail : ∀ e' ∈ rest, t.relay_states e'.1 = s.relay_states e'.1 :=
      fun e' h => hr e' (List.mem_cons_of_mem e h)
    simp only [driftList, GPIO_input, hg, he, ih htail]

lemma sync_loop_broadcasts (l : List (Nat × RelayInfo)) (acc : List SyncChange) (s : Sys) :
    (sync_loop l acc s).2.broadcasts = s.broadcasts := by
  induction l generalizing acc s with
  | nil => rfl
  | cons e rest ih =>
    simp only [sync_loop]
    split
    · exact ih _ _
    · exact ih _ _

lemma sync_gpio_loop_broadcasts (l : List (Nat × RelayInfo)) (c : Bool) (s : Sys) :
    (sync_gpio_loop l c s).2.broadcasts = s.broadcasts := by
  induction l generalizing c s with
  | nil => rfl
  | cons e rest ih =>
    simp only [sync_gpio_loop]
    split
    · exact ih _ _
    · exact ih _ _

lemma sync_loop_spec (l : List (Nat × RelayInfo)) (acc : List SyncChange) (s : Sys)
    (hnd : l.Pairwise (fun a b => a.1 ≠ b.1)) :
    (sync_loop l acc s).1 = acc ++ driftList s l
    ∧ (∀ e ∈ l, (sync_loop l acc s).2.relay_states e.1
        = levelToState (GPIO_input s.gpio e.2.pin))
    ∧ (∀ id, id ∉ l.map Prod.fst → (sync_loop l acc s).2.relay_states id = s.relay_states id)
    ∧ (sync_loop l acc s).2.gpio = s.gpio
    ∧ (sync_loop l acc s).2.emergency_stop = s.emergency_stop
    ∧ (sync_loop l acc s).2.pending = s.pending
    ∧ (sync_loop l acc s).2.gpio_initialized = s.gpio_initialized := by
  induction l generalizing acc s with
  | nil => simp [sync_loop, driftList]
  | cons e rest ih =>
    rcases List.pairwise_cons.mp hnd with ⟨hhead, htail⟩
    have hnotmem : e.1 ∉ rest.map Prod.fst := by
      intro hmem
      rcases List.mem_map.mp hmem with ⟨b, hb, hb1⟩
      exact hhead b hb hb1.symm
    by_cases hdrift : s.relay_states e.1 = levelToState (GPIO_input s.gpio e.2.pin)
    · have hloop : sync_loop (e :: rest) acc s = sync_loop rest acc s := by
        simp only [sync_loop]
        rw [if_neg (not_not_intro hdrift)]
      have hrec := ih acc s htail
      rw [hloop]
      refine ⟨?_, ?_, ?_, hrec.2.2.2.1, hrec.2.2.2.2.1, hrec.2.2.2.2.2.1, hrec.2.2.2.2.2.2⟩
      · rw [hrec.1]
        simp only [driftList]
        rw [if_neg (not_not_intro hdrift)]
      · intro e' he'
        rcases List.mem_cons.mp he' with he' | he'
        · rw [he']
          rw [hrec.2.2.1 e.1 hnotmem, hdrift]
        · exact hrec.2.1 e' he'
      · intro id hid
        exact hrec.2.2.1 id (fun h => hid (List.mem_cons_of_mem _ h))
    · have hloop : sync_loop (e :: rest) acc s
          = sync_loop rest
              (acc ++ [⟨e.1, e.2.pin, s.relay_states e.1,
                levelToState (GPIO_input s.gpio e.2.pin),
                levelName (GPIO_input s.gpio e.2.pin)⟩]) (syncUpd s e) := by
        simp only [sync_loop, syncUpd]
        rw [if_pos hdrift]
      have hrec := ih (acc ++ [⟨e.1, e.2.pin, s.relay_states e.1,
        levelToState (GPIO_input s.gpio e.2.pin),
        levelName (GPIO_input s.gpio e.2.pin)⟩]) (syncUpd s e) htail
      rw [hloop]
      have hrs : ∀ e' ∈ rest, (syncUpd s e).relay_states e'.1 = s.relay_states e'.1 := by
        intro e' he'
        exact updState_ne s.relay_states e.1 e'.1 _ (fun h => hhead e' he' h.symm)
      refine ⟨?_, ?_, ?_, hrec.2.2.2.1, hrec.2.2.2.2.1, hrec.2.2.2.2.2.1, hrec.2.2.2.2.2.2⟩
      · rw [hrec.1, driftList_congr s (syncUpd s e) rest rfl hrs]
        simp only [driftList]
        rw [if_pos hdrift]
        simp
      · intro e' he'
        rcases List.mem_cons.mp he' with he' | he'
        · rw [he']
          rw [hrec.2.2.1 e.1 hnotmem]
          exact updState_self s.relay_states e.1 _
        · rw [hrec.2.1 e' he']
          rfl
      · intro id hid
        have hid1 : id ≠ e.1 := by
          intro h
          exact hid (by rw [h]; exact List.mem_cons_self _ _)
        have hid2 : id ∉ rest.map Prod.fst :=
          fun h => hid (List.mem_cons_of_mem _ h)
        rw [hrec.2.2.1 id hid2]
        exact updState_ne s.relay_states e.1 id _ hid1

lemma stepOk_congr (s t : Sys) (h : t.gpio.writeFails = s.gpio.writeFails) (st : SeqStep) :
    stepOk t st = stepOk s st := by
  unfold stepOk
  cases RELAY_NAMES.lookup st.relay_id <;> simp [h]

lemma all_stepOk_congr (s t : Sys) (h : t.gpio.writeFails = s.gpio.writeFails)
    (l : List SeqStep) : l.all (stepOk t) = l.all (stepOk s) := by
  induction l with
  | nil => rfl
  | cons st rest ih => simp only [List.all_cons, stepOk_congr s t h st, ih]

lemma execute_steps_spec (steps : List SeqStep) (s : Sys)
    (hinit : s.gpio_initialized = true) (hok : steps.all (stepOk s) = true) :
    (execute_steps steps s).2.1 = steps_trace steps
    ∧ (execute_steps steps s).2.2 = true
    ∧ (execute_steps steps s).1.gpio_initialized = true
    ∧ (execute_steps steps s).1.gpio.writeFails = s.gpio.writeFails := by
  induction steps generalizing s with
  | nil => exact ⟨rfl, rfl, hinit, rfl⟩
  | cons st rest ih =>
    rw [List.all_cons, Bool.and_eq_true] at hok
    cases hlk : RELAY_NAMES.lookup st.relay_id with
    | none =>
      exfalso
      have hfalse := hok.1
      simp only [stepOk, hlk] at hfalse
      exact Bool.false_ne_true hfalse
    | some info =>
      have hw : s.gpio.writeFails info.pin = false := by
        have hb := hok.1
        simp only [stepOk, hlk, Bool.not_eq_eq_eq_not, Bool.not_true] at hb
        exact hb
      have hset := set_relay_ok st.relay_id st.state s info hinit hlk hw
      cases hE : set_relay_state st.relay_id st.state s with
      | mk s1 err =>
        rw [hE] at hset
        have herr : err = none := congrArg Prod.snd hset
        have hs1init : s1.gpio_initialized = true := by
          have hp : s1.gpio_initialized = s.gpio_initialized :=
            congrArg (fun p => (Prod.fst p).gpio_initialized) hset
          rw [hp, hinit]
        have hs1w : s1.gpio.writeFails = s.gpio.writeFails :=
          congrArg (fun p => (Prod.fst p).gpio.writeFails) hset
        have hok1 : rest.all (stepOk s1) = true := by
          rw [all_stepOk_congr s s1 hs1w]; exact hok.2
        have hrec := ih s1 hs1init hok1
        simp only [execute_steps, hE, herr]
        refine ⟨?_, hrec.2.1, hrec.2.2.1, (hrec.2.2.2).trans hs1w⟩
        simp only [steps_trace, hrec.1]

lemma execute_repeat_spec (n : Nat) (steps : List SeqStep) (s : Sys)
    (hinit : s.gpio_initialized = true) (hok : steps.all (stepOk s) = true) :
    (execute_repeat n steps s).2.1 = seq_trace n steps
    ∧ (execute_repeat n steps s).2.2 = true
    ∧ (execute_repeat n steps s).1.gpio_initialized = true
    ∧ (execute_repeat n steps s).1.gpio.writeFails = s.gpio.writeFails := by
  induction n generalizing s with
  | zero => exact ⟨rfl, rfl, hinit, rfl⟩
  | succ n ih =>
    have hsteps := execute_steps_spec steps s hinit hok
    cases hE : execute_steps steps s with
    | mk s1 p =>
      cases p with
      | mk evs ok =>
        rw [hE] at hsteps
        have hok1 : steps.all (stepOk s1) = true := by
          rw [all_stepOk_congr s s1 hsteps.2.2.2]; exact hok
        have hrec := ih s1 hsteps.2.2.1 hok1
        have hoktrue : ok = true := hsteps.2.1
        simp only [execute_repeat, hE, hoktrue]
        refine ⟨?_, hrec.2.1, hrec.2.2.1, (hrec.2.2.2).trans hsteps.2.2.2⟩
        have hevs : evs = steps_trace steps := hsteps.1
        simp only [seq_trace, hevs, hrec.1]

lemma steps_trace_sleep (steps : List SeqStep) (d : ℚ)
    (h : Ev.sleep d ∈ steps_trace steps) : ∃ st ∈ steps, st.duration = d := by
  induction steps with
  | nil => cases h
  | cons st rest ih =>
    rcases List.mem_cons.mp h with h | h
    · cases h
    · rcases List.mem_cons.mp h with h | h
      · refine ⟨st, List.mem_cons_self st rest, ?_⟩
        cases h
        rfl
      · obtain ⟨st', hst', hd⟩ := ih h
        exact ⟨st', List.mem_cons_of_mem st hst', hd⟩

lemma seq_trace_sleep (n : Nat) (steps : List SeqStep) (d : ℚ)
    (h : Ev.sleep d ∈ seq_trace n steps) : ∃ st ∈ steps, st.duration = d := by
  induction n with
  | zero => cases h
  | succ n ih =>
    rcases List.mem_append.mp h with h | h
    · exact steps_trace_sleep steps d h
    · exact ih h

lemma set_all_loop_spec (l : List (Nat × RelayInfo)) (b : Bool) (s : Sys)
    (hinit : s.gpio_initialized = true)
    (hok : l.all (fun e => !(s.gpio.writeFails e.2.pin)) = true)
    (hlk : ∀ e ∈ l, RELAY_NAMES.lookup e.1 = some e.2) :
    (set_all_loop l b s).2 = none
    ∧ (∀ e ∈ l, (set_all_loop l b s).1.relay_states e.1 = b)
    ∧ (∀ id, id ∉ l.map Prod.fst → (set_all_loop l b s).1.relay_states id = s.relay_states id)
    ∧ (set_all_loop l b s).1.pending = s.pending
    ∧ (set_all_loop l b s).1.emergency_stop = s.emergency_stop
    ∧ (set_all_loop l b s).1.gpio_initialized = true
    ∧ (set_all_loop l b s).1.gpio.writeFails = s.gpio.writeFails
    ∧ (set_all_loop l b s).1.broadcasts = s.broadcasts + l.length := by
  induction l generalizing s with
  | nil =>
    refine ⟨rfl, ?_, ?_, rfl, rfl, hinit, rfl, rfl⟩
    · intro e he
      cases he
    · intro id _
      rfl
  | cons e rest ih =>
    rw [List.all_cons, Bool.and_eq_true] at hok
    have hw : s.gpio.writeFails e.2.pin = false := by
      have := hok.1
      simp only [Bool.not_eq_eq_eq_not, Bool.not_true] at this
      exact this
    have hset := set_relay_ok e.1 b s e.2 hinit (hlk e (List.mem_cons_self e rest)) hw
    cases hE : set_relay_state e.1 b s with
    | mk s1 err =>
      rw [hE] at hset
      have herr : err = none := congrArg Prod.snd hset
      have hs1rs : s1.relay_states = updState s.relay_states e.1 b :=
        congrArg (fun p => (Prod.fst p).relay_states) hset
      have hs1init : s1.gpio_initialized = true := by
        have hp : s1.gpio_initialized = s.gpio_initialized :=
          congrArg (fun p => (Prod.fst p).gpio_initialized) hset
        rw [hp, hinit]
      have hs1w : s1.gpio.writeFails = s.gpio.writeFails :=
        congrArg (fun p => (Prod.fst p).gpio.writeFails) hset
      have hs1pend : s1.pending = s.pending :=
        congrArg (fun p => (Prod.fst p).pending) hset
      have hs1em : s1.emergency_stop = s.emergency_stop :=
        congrArg (fun p => (Prod.fst p).emergency_stop) hset
      have hs1bc : s1.broadcasts = s.broadcasts + 1 :=
        congrArg (fun p => (Prod.fst p).broadcasts) hset
      have hok1 : rest.all (fun e' => !(s1.gpio.writeFails e'.2.pin)) = true := by
        have hfun : (fun e' : Nat × RelayInfo => !(s1.gpio.writeFails e'.2.pin))
            = (fun e' : Nat × RelayInfo => !(s.gpio.writeFails e'.2.pin)) := by
          funext e'; rw [hs1w]
        rw [hfun]; exact hok.2
      have hrec := ih s1 hs1init hok1 (fun e' he' => hlk e' (List.mem_cons_of_mem e he'))
      simp only [set_all_loop, hE, herr]
      refine ⟨hrec.1, ?_, ?_, (hrec.2.2.2.1).trans hs1pend, (hrec.2.2.2.2.1).trans hs1em,
        hrec.2.2.2.2.2.1, (hrec.2.2.2.2.2.2.1).trans hs1w, ?_⟩
      · intro e' he'
        by_cases hmem : e'.1 ∈ rest.map Prod.fst
        · rcases List.mem_map.mp hmem with ⟨b', hb', hb1⟩
          have hb2 := hrec.2.1 b' hb'
          rw [hb1] at hb2
          exact hb2
        · rcases List.mem_cons.mp he' with he' | he'
          · rw [he']
            rw [hrec.2.2.1 e.1 (by rw [← he']; exact hmem)]
            rw [hs1rs]
            exact updState_self s.relay_states e.1 b
          · exact absurd (List.mem_map.mpr ⟨e', he', rfl⟩) hmem
      · intro id hid
        have hid1 : id ≠ e.1 := by
          intro h
          exact hid (by rw [h]; exact List.mem_cons_self _ _)
        have hid2 : id ∉ rest.map Prod.fst := fun h => hid (List.mem_cons_of_mem _ h)
        rw [hrec.2.2.1 id hid2, hs1rs]
        exact updState_ne s.relay_states e.1 id b hid1
      · rw [hrec.2.2.2.2.2.2.2, hs1bc]
        simp only [List.length_cons]
        omega

lemma sync_loop_nodrift (l : List (Nat × RelayInfo)) (acc : List SyncChange) (s : Sys)
    (h : ∀ e ∈ l, s.relay_states e.1 = levelToState (GPIO_input s.gpio e.2.pin)) :
    sync_loop l acc s = (acc, s) := by
  induction l with
  | nil => rfl
  | cons e rest ih =>
    simp only [sync_loop]
    rw [if_neg (not_not_intro (h e (List.mem_cons_self e rest)))]
    exact ih (fun e' he' => h e' (List.mem_cons_of_mem e he'))

lemma RELAY_NAMES_pairwise : RELAY_NAMES.Pairwise (fun a b => a.1 ≠ b.1) := by
  decide

lemma RELAY_NAMES_lookup_self : ∀ e ∈ RELAY_NAMES, RELAY_NAMES.lookup e.1 = some e.2 := by
  decide

lemma turn_on_some_fields (relay_id : Nat) (d : ℚ) (s : Sys) (info : RelayInfo)
    (hinit : s.gpio_initialized = true) (hlk : RELAY_NAMES.lookup relay_id = some info)
    (hw : s.gpio.writeFails info.pin = false) :
    (turn_relay_on relay_id (some d) s).2 = none
    ∧ (turn_relay_on relay_id (some d) s).1.relay_states = updState s.relay_states relay_id true
    ∧ (turn_relay_on relay_id (some d) s).1.pending = s.pending ++ [PendTask.delayed_off relay_id]
    ∧ (turn_relay_on relay_id (some d) s).1.gpio_initialized = true
    ∧ (turn_relay_on relay_id (some d) s).1.gpio.writeFails = s.gpio.writeFails
    ∧ (turn_relay_on relay_id (some d) s).1.emergency_stop = s.emergency_stop := by
  unfold turn_relay_on
  rw [set_relay_ok relay_id true s info hinit hlk hw]
  exact ⟨rfl, rfl, rfl, hinit, rfl, rfl⟩

lemma turn_on_none_fields (relay_id : Nat) (s : Sys) (info : RelayInfo)
    (hinit : s.gpio_initialized = true) (hlk : RELAY_NAMES.lookup relay_id = some info)
    (hw : s.gpio.writeFails info.pin = false) :
    (turn_relay_on relay_id none s).2 = none
    ∧ (turn_relay_on relay_id none s).1.relay_states = updState s.relay_states relay_id true
    ∧ (turn_relay_on relay_id none s).1.pending = s.pending
    ∧ (turn_relay_on relay_id none s).1.gpio_initialized = true
    ∧ (turn_relay_on relay_id none s).1.gpio.writeFails = s.gpio.writeFails := by
  unfold turn_relay_on
  rw [set_relay_ok relay_id true s info hinit hlk hw]
  exact ⟨rfl, rfl, rfl, hinit, rfl⟩

lemma sync_states_eq (s : Sys) (hinit : s.gpio_initialized = true) :
    sync_states s = Except.ok
      (⟨"GPIO states synchronized", (sync_loop RELAY_NAMES [] s).1,
        (sync_loop RELAY_NAMES [] s).1.length⟩,
       if (sync_loop RELAY_NAMES [] s).1 = [] then (sync_loop RELAY_NAMES [] s).2
       else bumpBroadcast (sync_loop RELAY_NAMES [] s).2) := by
  simp [sync_states, hinit, bumpBroadcast]

lemma sync_states_nodrift (s : Sys) (hinit : s.gpio_initialized = true)
    (h : ∀ e ∈ RELAY_NAMES, s.relay_states e.1 = levelToState (GPIO_input s.gpio e.2.pin)) :
    sync_states s = Except.ok (⟨"GPIO states synchronized", [], 0⟩, s) := by
  rw [sync_states_eq s hinit, sync_loop_nodrift RELAY_NAMES [] s h]
  simp

lemma sync_states_spec (s : Sys) (hinit : s.gpio_initialized = true) :
    ∃ resp s2, sync_states s = Except.ok (resp, s2)
    ∧ resp.message = "GPIO states synchronized"
    ∧ resp.changes = driftList s RELAY_NAMES
    ∧ resp.total_changes = resp.changes.length
    ∧ (∀ e ∈ RELAY_NAMES, s2.relay_states e.1 = levelToState (GPIO_input s.gpio e.2.pin))
    ∧ (∀ id, id ∉ RELAY_NAMES.map Prod.fst → s2.relay_states id = s.relay_states id)
    ∧ s2.broadcasts = (if driftList s RELAY_NAMES = [] then s.broadcasts else s.broadcasts + 1)
    ∧ s2.gpio = s.gpio
    ∧ s2.emergency_stop = s.emergency_stop
    ∧ s2.pending = s.pending
    ∧ s2.gpio_initialized = s.gpio_initialized := by
  have hspec := sync_loop_spec RELAY_NAMES [] s RELAY_NAMES_pairwise
  have hbc := sync_loop_broadcasts RELAY_NAMES [] s
  have hdl : (sync_loop RELAY_NAMES [] s).1 = driftList s RELAY_NAMES := by
    have h := hspec.1
    rwa [List.nil_append] at h
  have hrs : (if (sync_loop RELAY_NAMES [] s).1 = [] then (sync_loop RELAY_NAMES [] s).2
      else bumpBroadcast (sync_loop RELAY_NAMES [] s).2).relay_states
      = (sync_loop RELAY_NAMES [] s).2.relay_states := by
    split <;> rfl
  have hg : (if (sync_loop RELAY_NAMES [] s).1 = [] then (sync_loop RELAY_NAMES [] s).2
      else bumpBroadcast (sync_loop RELAY_NAMES [] s).2).gpio
      = (sync_loop RELAY_NAMES [] s).2.gpio := by
    split <;> rfl
  have hes : (if (sync_loop RELAY_NAMES [] s).1 = [] then (sync_loop RELAY_NAMES [] s).2
      else bumpBroadcast (sync_loop RELAY_NAMES [] s).2).emergency_stop
      = (sync_loop RELAY_NAMES [] s).2.emergency_stop := by
    split <;> rfl
  have hpd : (if (sync_loop RELAY_NAMES [] s).1 = [] then (sync_loop RELAY_NAMES [] s).2
      else bumpBroadcast (sync_loop RELAY_NAMES [] s).2).pending
      = (sync_loop RELAY_NAMES [] s).2.pending := by
    split <;> rfl
  have hgi : (if (sync_loop RELAY_NAMES [] s).1 = [] then (sync_loop RELAY_NAMES [] s).2
      else bumpBroadcast (sync_loop RELAY_NAMES [] s).2).gpio_initialized
      = (sync_loop RELAY_NAMES [] s).2.gpio_initialized := by
    split <;> rfl
  refine ⟨⟨"GPIO states synchronized", (sync_loop RELAY_NAMES [] s).1,
      (sync_loop RELAY_NAMES [] s).1.length⟩,
    _, sync_states_eq s hinit, rfl, hdl, by simp, ?_, ?_, ?_, ?_, ?_, ?_, ?_⟩
  · intro e he
    rw [hrs]
    exact hspec.2.1 e he
  · intro id hid
    rw [hrs]
    exact hspec.2.2.1 id hid
  · rw [← hdl]
    by_cases hc : (sync_loop RELAY_NAMES [] s).1 = []
    · rw [if_pos hc, if_pos hc, hbc]
    · rw [if_neg hc, if_neg hc]
      show (sync_loop RELAY_NAMES [] s).2.broadcasts + 1 = s.broadcasts + 1
      rw [hbc]
  · rw [hg]
    exact hspec.2.2.2.1
  · rw [hes]
    exact hspec.2.2.2.2.1
  · rw [hpd]
    exact hspec.2.2.2.2.2.1
  · rw [hgi]
    exact hspec.2.2.2.2.2.2

/-- Claim C1, counterexample.  On a state with a queued sequence run,
`/emergency/stop` succeeds and turns every relay OFF, but the
`emergency_stop` flag stays `false` (nothing in the module ever sets
it), the queued run is not cancelled, and running it afterwards
re-energizes relay 1 — contradicting the claimed cancellation, the
claimed flag setting, and the claimed all-OFF persistence. -/
theorem C1_counterexample :
    (emergency_stop_all s_c1).2 = none
    ∧ (emergency_stop_all s_c1).1.relay_states 1 = false
    ∧ (emergency_stop_all s_c1).1.relay_states 2 = false
    ∧ (emergency_stop_all s_c1).1.relay_states 3 = false
    ∧ (emergency_stop_all s_c1).1.relay_states 4 = false
    ∧ (emergency_stop_all s_c1).1.emergency_stop = false
    ∧ (emergency_stop_all s_c1).1.pending = [PendTask.seq_run [⟨1, true, 1⟩] 1]
    ∧ (fire_task (PendTask.seq_run [⟨1, true, 1⟩] 1)
        (emergency_stop_all s_c1).1).1.relay_states 1 = true := by
  decide

/-- Claim C1, amended.  On an initialized system whose pins do not
fault, `/emergency/stop` issues `SetRelay(id, false)` for every
configured relay in registry order and succeeds; but it cancels no
pending timer or sequence run (the pending task list is untouched) and
it leaves the `emergency_stop` flag unchanged (the code never sets
that flag to true). -/
theorem C1_emergency_stop (s : Sys) (hinit : s.gpio_initialized = true) (hp : pinsOk s) :
    (emergency_stop_all s).2 = none
    ∧ (emergency_stop_all s).1.relay_states 1 = false
    ∧ (emergency_stop_all s).1.relay_states 2 = false
    ∧ (emergency_stop_all s).1.relay_states 3 = false
    ∧ (emergency_stop_all s).1.relay_states 4 = false
    ∧ (emergency_stop_all s).1.emergency_stop = s.emergency_stop
    ∧ (emergency_stop_all s).1.pending = s.pending := by
  obtain ⟨h2, h3, h4, h17⟩ := hp
  have hok : RELAY_NAMES.all (fun e => !(s.gpio.writeFails e.2.pin)) = true := by
    simp [RELAY_NAMES, List.all_cons, h2, h3, h4, h17]
  have hspec := set_all_loop_spec RELAY_NAMES false s hinit hok RELAY_NAMES_lookup_self
  cases hE : set_all_loop RELAY_NAMES false s with
  | mk s1 err =>
    rw [hE] at hspec
    have herr : err = none := hspec.1
    simp only [emergency_stop_all, hE, herr]
    exact ⟨by simp, hspec.2.1 (1, ⟨2, "Relay 1"⟩) (by decide),
      hspec.2.1 (2, ⟨3, "Relay 2"⟩) (by decide),
      hspec.2.1 (3, ⟨4, "Relay 3"⟩) (by decide),
      hspec.2.1 (4, ⟨17, "Relay 4"⟩) (by decide),
      hspec.2.2.2.2.1, hspec.2.2.2.1⟩

/-- Claim C1, witness for the amended theorem at the concrete state
`s_c1`. -/
theorem C1_witness :
    (emergency_stop_all s_c1).2 = none
    ∧ (emergency_stop_all s_c1).1.pending = s_c1.pending :=
  ⟨(C1_emergency_stop s_c1 rfl ⟨rfl, rfl, rfl, rfl⟩).1,
   (C1_emergency_stop s_c1 rfl ⟨rfl, rfl, rfl, rfl⟩).2.2.2.2.2.2⟩

/-- Claim C2, counterexample.  A timed `/relay/on` for relay 1 arms a
delayed auto-off task; a later plain `/relay/on` (an explicit
`SetRelay(1, true)`) does not cancel it — the task is still pending —
and when the stale timer fires it turns relay 1 OFF, silently
overriding the later explicit command. -/
theorem C2_counterexample :
    (turn_relay_on 1 none ((turn_relay_on 1 (some 5) s0).1)).1.pending
      = [PendTask.delayed_off 1]
    ∧ (turn_relay_on 1 none ((turn_relay_on 1 (some 5) s0).1)).1.relay_states 1 = true
    ∧ (fire_task (PendTask.delayed_off 1)
        ((turn_relay_on 1 none ((turn_relay_on 1 (some 5) s0).1)).1)).1.relay_states 1
      = false := by
  decide

/-- Claim C2, amended.  No command cancels a pending auto-off timer:
after a timed `SetRelay(id, true, d)` followed by an explicit
`SetRelay(id, true)`, the delayed-off task armed by the first command
is still pending, and firing it sets the relay to `false`, overriding
the explicit command. -/
theorem C2_stale_timer (relay_id : Nat) (info : RelayInfo) (d : ℚ) (s : Sys)
    (hinit : s.gpio_initialized = true) (hlk : RELAY_NAMES.lookup relay_id = some info)
    (hw : s.gpio.writeFails info.pin = false) :
    (turn_relay_on relay_id none ((turn_relay_on relay_id (some d) s).1)).1.pending
      = s.pending ++ [PendTask.delayed_off relay_id]
    ∧ (turn_relay_on relay_id none
        ((turn_relay_on relay_id (some d) s).1)).1.relay_states relay_id = true
    ∧ (fire_task (PendTask.delayed_off relay_id)
        ((turn_relay_on relay_id none
          ((turn_relay_on relay_id (some d) s).1)).1)).1.relay_states relay_id = false := by
  have h1 := turn_on_some_fields relay_id d s info hinit hlk hw
  have h2 := turn_on_none_fields relay_id ((turn_relay_on relay_id (some d) s).1) info
    h1.2.2.2.1 hlk (by rw [h1.2.2.2.2.1]; exact hw)
  refine ⟨?_, ?_, ?_⟩
  · rw [h2.2.2.1, h1.2.2.1]
  · rw [h2.2.1]
    exact updState_self _ relay_id true
  · have h3 := set_relay_ok relay_id false
      ((turn_relay_on relay_id none ((turn_relay_on relay_id (some d) s).1)).1) info
      h2.2.2.2.1 hlk (by rw [h2.2.2.2.2]; rw [h1.2.2.2.2.1]; exact hw)
    show (set_relay_state relay_id false _).1.relay_states relay_id = false
    rw [h3]
    exact updState_self _ relay_id false

/-- Claim C2, witness for the amended theorem on the nominal state. -/
theorem C2_witness :
    (turn_relay_on 1 none ((turn_relay_on 1 (some 5) s0).1)).1.pending
      = s0.pending ++ [PendTask.delayed_off 1]
    ∧ (turn_relay_on 1 none ((turn_relay_on 1 (some 5) s0).1)).1.relay_states 1 = true
    ∧ (fire_task (PendTask.delayed_off 1)
        ((turn_relay_on 1 none ((turn_relay_on 1 (some 5) s0).1)).1)).1.relay_states 1
      = false :=
  C2_stale_timer 1 ⟨2, "Relay 1"⟩ 5 s0 rfl rfl rfl

/-- Claim C3, counterexample.  With relay 2 (pin 3) faulting on write,
`/all/on` turns relay 1 ON, then aborts with a single hardware error:
relays 3 and 4 are left OFF, contradicting the claim that the
operation continues to the remaining relays with per-relay failure
reporting. -/
theorem C3_counterexample :
    (turn_all_on s_c3).2 = some ApiErr.hardwareFault
    ∧ (turn_all_on s_c3).1.relay_states 1 = true
    ∧ (turn_all_on s_c3).1.relay_states 2 = false
    ∧ (turn_all_on s_c3).1.relay_states 3 = false
    ∧ (turn_all_on s_c3).1.relay_states 4 = false := by
  decide

/-- Claim C3, amended.  `/all/on` issues `SetRelay` in registry order
but aborts at the first hardware failure: when relay 1 writes fine and
the pin of relay 2 faults, the whole operation raises one hardware error,
relay 1 keeps the new state, and every other relay (including relays 3
and 4, never reached) is left unchanged; exactly one notification (for
relay 1) was scheduled. -/
theorem C3_all_on_aborts (s : Sys) (hinit : s.gpio_initialized = true)
    (h1 : s.gpio.writeFails 2 = false) (h2 : s.gpio.writeFails 3 = true) :
    (turn_all_on s).2 = some ApiErr.hardwareFault
    ∧ (turn_all_on s).1.relay_states 1 = true
    ∧ (∀ i, i ≠ 1 → (turn_all_on s).1.relay_states i = s.relay_states i)
    ∧ (turn_all_on s).1.broadcasts = s.broadcasts + 1 := by
  cases hE1 : set_relay_state 1 true s with
  | mk s1 err1 =>
    have hset1 := set_relay_ok 1 true s ⟨2, "Relay 1"⟩ hinit rfl h1
    rw [hE1] at hset1
    have herr1 : err1 = none := congrArg Prod.snd hset1
    have hs1rs : s1.relay_states = updState s.relay_states 1 true :=
      congrArg (fun p => (Prod.fst p).relay_states) hset1
    have hs1init : s1.gpio_initialized = true := by
      have hp : s1.gpio_initialized = s.gpio_initialized :=
        congrArg (fun p => (Prod.fst p).gpio_initialized) hset1
      rw [hp, hinit]
    have hs1w : s1.gpio.writeFails = s.gpio.writeFails :=
      congrArg (fun p => (Prod.fst p).gpio.writeFails) hset1
    have hs1bc : s1.broadcasts = s.broadcasts + 1 :=
      congrArg (fun p => (Prod.fst p).broadcasts) hset1
    have hw2 : s1.gpio.writeFails 3 = true := by rw [hs1w]; exact h2
    have hset2 := set_relay_fault 2 true s1 ⟨3, "Relay 2"⟩ hs1init rfl hw2
    have hloop : turn_all_on s = (s1, some ApiErr.hardwareFault) := by
      simp only [turn_all_on, RELAY_NAMES, set_all_loop, hE1, herr1, hset2]
    rw [hloop]
    refine ⟨rfl, ?_, ?_, hs1bc⟩
    · rw [hs1rs]
      exact updState_self s.relay_states 1 true
    · intro i hi
      rw [hs1rs]
      exact updState_ne s.relay_states 1 i true hi

/-- Claim C3, witness for the amended theorem at the concrete faulting
state `s_c3`. -/
theorem C3_witness :
    (turn_all_on s_c3).2 = some ApiErr.hardwareFault
    ∧ (turn_all_on s_c3).1.relay_states 1 = true :=
  ⟨(C3_all_on_aborts s_c3 rfl rfl rfl).1, (C3_all_on_aborts s_c3 rfl rfl rfl).2.1⟩

/-- Claim C4, confirmed.  `set_relay_state` on an initialized system:
an unknown relay id is rejected with the invalid-relay error before any
hardware or state mutation (the returned state is exactly the input
state); a faulting line write surfaces the hardware error and leaves
the whole state, in particular the stored entry of that relay,
unchanged; a successful call updates the pin level and the stored
state together and schedules one notification — the write is atomic
across line and store. -/
theorem C4_set_relay_atomic :
    (∀ relay_id b s, s.gpio_initialized = true → RELAY_NAMES.lookup relay_id = none →
      set_relay_state relay_id b s = (s, some ApiErr.invalidRelay))
    ∧ (∀ relay_id b s info, s.gpio_initialized = true →
        RELAY_NAMES.lookup relay_id = some info → s.gpio.writeFails info.pin = true →
        set_relay_state relay_id b s = (s, some ApiErr.hardwareFault))
    ∧ (∀ relay_id b s info, s.gpio_initialized = true →
        RELAY_NAMES.lookup relay_id = some info → s.gpio.writeFails info.pin = false →
        set_relay_state relay_id b s =
          ({ relay_states := updState s.relay_states relay_id b,
             emergency_stop := s.emergency_stop,
             gpio_initialized := s.gpio_initialized,
             gpio := { pin := updPin s.gpio.pin info.pin (if b then Level.LOW else Level.HIGH),
                       writeFails := s.gpio.writeFails },
             broadcasts := s.broadcasts + 1,
             pending := s.pending }, none)) :=
  ⟨fun relay_id b s h1 h2 => set_relay_invalid relay_id b s h1 h2,
   fun relay_id b s info h1 h2 h3 => set_relay_fault relay_id b s info h1 h2 h3,
   fun relay_id b s info h1 h2 h3 => set_relay_ok relay_id b s info h1 h2 h3⟩

/-- Claim C4, witness: relay id 7 is rejected as invalid on the
nominal state, and on the state whose pin 3 faults, setting relay 2
surfaces the hardware error with the state unchanged. -/
theorem C4_witness :
    set_relay_state 7 true s0 = (s0, some ApiErr.invalidRelay)
    ∧ set_relay_state 2 true s_c3 = (s_c3, some ApiErr.hardwareFault) :=
  ⟨C4_set_relay_atomic.1 7 true s0 rfl rfl,
   C4_set_relay_atomic.2.1 2 true s_c3 ⟨3, "Relay 2"⟩ rfl rfl rfl⟩

/-- Claim C5, confirmed.  `/relay/toggle` reads the stored state and
issues a set of its negation; iterating it N times on a registered,
non-faulting relay of an initialized system yields the initial state
XOR (N mod 2). -/
theorem C5_toggle_parity :
    (∀ relay_id s, toggle_relay relay_id s
      = set_relay_state relay_id (!(s.relay_states relay_id)) s)
    ∧ (∀ n relay_id info s, s.gpio_initialized = true →
        RELAY_NAMES.lookup relay_id = some info → s.gpio.writeFails info.pin = false →
        (iterate_toggle n relay_id s).relay_states relay_id
          = Bool.xor (s.relay_states relay_id) (n % 2 == 1)) :=
  ⟨fun _ _ => rfl,
   fun n relay_id info s h1 h2 h3 => iterate_toggle_parity n relay_id info s h1 h2 h3⟩

/-- Claim C5, witness: three toggles of relay 1 on the nominal state
leave it at its initial state XOR true. -/
theorem C5_witness :
    (iterate_toggle 3 1 s0).relay_states 1 = Bool.xor (s0.relay_states 1) (3 % 2 == 1) :=
  C5_toggle_parity.2 3 1 ⟨2, "Relay 1"⟩ s0 rfl rfl rfl

/-- Claim C6, counterexample.  For the spec example sequence
([(1,true,0.1),(2,false,0.1)] repeated twice) the writes do happen in
the claimed literal order, but the immediate response of `/sequence`
is only a summary — message "Sequence started with 2 steps, 2
repetitions", step count, repetition count and estimated duration —
with no run handle to poll, and no Completed status is ever reported
(completion is only logged). -/
theorem C6_counterexample :
    (run_sequence exSeq s0).1
      = ⟨"Sequence started with 2 steps, 2 repetitions", 2, 2, 2/5⟩
    ∧ (fire_task (PendTask.seq_run exSeq.steps exSeq.repeats) s0).2
      = [Ev.write 1 true, Ev.sleep (1/10), Ev.write 2 false, Ev.sleep (1/10),
         Ev.write 1 true, Ev.sleep (1/10), Ev.write 2 false, Ev.sleep (1/10)] := by
  constructor
  · simp only [run_sequence, exSeq, SeqResp.mk.injEq]
    norm_num
    decide
  · simp [fire_task, exSeq, execute_repeat, execute_steps, set_relay_state, RELAY_NAMES,
      GPIO_output, updState, updPin, s0, List.lookup]

/-- Claim C6, amended.  `/sequence` returns immediately — the response
is computed before any step runs and the state is untouched except for
queuing the background run — and the response is a plain summary
(message, step count, repetitions, estimated duration) rather than a
run handle; the queued background run, once it executes on an
initialized system whose referenced relays do not fault, performs
exactly `repeats` passes over the steps in literal list order, each
write followed by an `asyncio.sleep` of the duration of that step (with
every slept duration at least 0.1 s when the steps are validated);
completion is only logged, never reported as a status. -/
theorem C6_seq_order (seq : RelaySequence) (s : Sys)
    (hinit : s.gpio_initialized = true) (hok : seq.steps.all (stepOk s) = true)
    (hdur : ∀ st ∈ seq.steps, (1 : ℚ)/10 ≤ st.duration) :
    (run_sequence seq s).1
      = ⟨"Sequence started with " ++ toString seq.steps.length ++ " steps, "
          ++ toString seq.repeats ++ " repetitions",
         seq.steps.length, seq.repeats,
         (seq.steps.map SeqStep.duration).sum * (seq.repeats : ℚ)⟩
    ∧ (run_sequence seq s).2.relay_states = s.relay_states
    ∧ (run_sequence seq s).2.broadcasts = s.broadcasts
    ∧ (run_sequence seq s).2.pending = s.pending ++ [PendTask.seq_run seq.steps seq.repeats]
    ∧ (fire_task (PendTask.seq_run seq.steps seq.repeats) s).2
      = seq_trace seq.repeats seq.steps
    ∧ (∀ d : ℚ, Ev.sleep d ∈ seq_trace seq.repeats seq.steps → (1 : ℚ)/10 ≤ d) := by
  refine ⟨rfl, rfl, rfl, rfl, ?_, ?_⟩
  · exact (execute_repeat_spec seq.repeats seq.steps s hinit hok).1
  · intro d hd
    obtain ⟨st, hst, hdeq⟩ := seq_trace_sleep seq.repeats seq.steps d hd
    rw [← hdeq]
    exact hdur st hst

/-- Claim C6, witness for the amended theorem at the example sequence
on the nominal state. -/
theorem C6_witness :
    (fire_task (PendTask.seq_run exSeq.steps exSeq.repeats) s0).2
      = seq_trace exSeq.repeats exSeq.steps :=
  (C6_seq_order exSeq s0 rfl (by decide)
    (by
      intro st hst
      simp only [exSeq, List.mem_cons, List.not_mem_nil, or_false] at hst
      rcases hst with rfl | rfl <;> norm_num)).2.2.2.2.1

/-- Claim C7, counterexample.  On a state where pin 2 was changed
externally (stored state of relay 1 is OFF, line reads LOW), serving
`GET /status` mutates the authoritative table — the stored state of
relay 1 flips to ON — yet the number of scheduled broadcast
notifications is unchanged: that mutation produces zero "changed"
notifications, not exactly one. -/
theorem C7_counterexample :
    s_c7.relay_states 1 = false
    ∧ (get_status s_c7).2.relay_states 1 = true
    ∧ (get_status s_c7).2.broadcasts = s_c7.broadcasts := by
  decide

/-- Claim C7, amended.  Only `set_relay_state` pairs each mutation with
exactly one scheduled notification; the GPIO sync performed while
serving `GET /status` schedules none even when it mutates the table,
and a `/sync` pass schedules a single notification for the whole pass
(none when nothing changed) no matter how many relays were updated. -/
theorem C7_notifications :
    (∀ relay_id b s info, s.gpio_initialized = true →
      RELAY_NAMES.lookup relay_id = some info → s.gpio.writeFails info.pin = false →
      (set_relay_state relay_id b s).1.broadcasts = s.broadcasts + 1)
    ∧ (∀ s : Sys, (get_status s).2.broadcasts = s.broadcasts)
    ∧ (∀ s resp s2, sync_states s = Except.ok (resp, s2) →
      s2.broadcasts = (if resp.changes = [] then s.broadcasts else s.broadcasts + 1)) := by
  refine ⟨?_, ?_, ?_⟩
  · intro relay_id b s info hinit hlk hw
    rw [set_relay_ok relay_id b s info hinit hlk hw]
  · intro s
    show (sync_gpio_states s).2.broadcasts = s.broadcasts
    unfold sync_gpio_states
    split
    · rfl
    · exact sync_gpio_loop_broadcasts RELAY_NAMES false s
  · intro s resp s2 hsync
    by_cases hinit : s.gpio_initialized = true
    · rw [sync_states_eq s hinit] at hsync
      injection hsync with h
      have hresp : resp = ⟨"GPIO states synchronized", (sync_loop RELAY_NAMES [] s).1,
          (sync_loop RELAY_NAMES [] s).1.length⟩ := (congrArg Prod.fst h).symm
      have hs2 : s2 = (if (sync_loop RELAY_NAMES [] s).1 = []
          then (sync_loop RELAY_NAMES [] s).2
          else bumpBroadcast (sync_loop RELAY_NAMES [] s).2) := (congrArg Prod.snd h).symm
      rw [hresp, hs2]
      by_cases hc : (sync_loop RELAY_NAMES [] s).1 = []
      · rw [if_pos hc]
        show (sync_loop RELAY_NAMES [] s).2.broadcasts
            = (if (sync_loop RELAY_NAMES [] s).1 = [] then s.broadcasts else s.broadcasts + 1)
        rw [if_pos hc]
        exact sync_loop_broadcasts RELAY_NAMES [] s
      · rw [if_neg hc]
        show (sync_loop RELAY_NAMES [] s).2.broadcasts + 1
            = (if (sync_loop RELAY_NAMES [] s).1 = [] then s.broadcasts else s.broadcasts + 1)
        rw [if_neg hc, sync_loop_broadcasts]
    · exfalso
      unfold sync_states at hsync
      rw [if_pos] at hsync
      · cases hsync
      · cases hb : s.gpio_initialized
        · rfl
        · exact absurd hb hinit

/-- Claim C7, witness for the amended theorem: a successful set on the
nominal state schedules exactly one notification. -/
theorem C7_witness :
    (set_relay_state 1 true s0).1.broadcasts = s0.broadcasts + 1 :=
  C7_notifications.1 1 true s0 ⟨2, "Relay 1"⟩ rfl rfl rfl

/-- Claim C8, confirmed.  On an initialized system, `/sync` succeeds
and: the stored state of every registered relay afterwards equals the level
read back from its own pin, a relay whose stored state already matched
its pin is left unchanged (and ids outside the registry are never
touched), the change report lists exactly the relays that diverged (in
registry order, via `driftList`), and exactly one broadcast
notification is scheduled for the pass when at least one relay
drifted, none otherwise; the GPIO fault model, the emergency flag and
the pending tasks are untouched. -/
theorem C8_sync_frame (s : Sys) (hinit : s.gpio_initialized = true) :
    ∃ resp s2, sync_states s = Except.ok (resp, s2)
    ∧ resp.changes = driftList s RELAY_NAMES
    ∧ resp.total_changes = resp.changes.length
    ∧ (∀ e ∈ RELAY_NAMES, s2.relay_states e.1 = levelToState (GPIO_input s.gpio e.2.pin))
    ∧ (∀ e ∈ RELAY_NAMES, s.relay_states e.1 = levelToState (GPIO_input s.gpio e.2.pin) →
        s2.relay_states e.1 = s.relay_states e.1)
    ∧ (∀ id, id ∉ RELAY_NAMES.map Prod.fst → s2.relay_states id = s.relay_states id)
    ∧ s2.broadcasts = (if driftList s RELAY_NAMES = [] then s.broadcasts else s.broadcasts + 1)
    ∧ s2.gpio = s.gpio
    ∧ s2.emergency_stop = s.emergency_stop
    ∧ s2.pending = s.pending := by
  obtain ⟨resp, s2, heq, _, hch, htot, hact, hframe, hbc, hg, hes, hpend, _⟩ :=
    sync_states_spec s hinit
  refine ⟨resp, s2, heq, hch, htot, hact, ?_, hframe, hbc, hg, hes, hpend⟩
  intro e he hsame
  rw [hact e he, hsame]

/-- Claim C8, witness at the drifted state `s_c8`. -/
theorem C8_witness : ∃ resp s2, sync_states s_c8 = Except.ok (resp, s2) := by
  obtain ⟨resp, s2, heq, _⟩ := C8_sync_frame s_c8 rfl
  exact ⟨resp, s2, heq⟩

/-- Claim C9, counterexample.  An unrecognized inbound websocket
message is not echoed verbatim: the module replies with the text
prefixed by "Echo: ", so the reply for "hello" is "Echo: hello", which
differs from the input. -/
theorem C9_counterexample :
    handle_ws_message "hello" = WsReply.text "Echo: hello"
    ∧ WsReply.text "Echo: hello" ≠ WsReply.text "hello" := by
  decide

/-- Claim C9, amended.  On the websocket boundary, "get_status" forces
an immediate snapshot and "ping" is answered with "pong"; any other
input is answered with the input prefixed by "Echo: " rather than with
the input verbatim. -/
theorem C9_ws_dispatch :
    handle_ws_message "get_status" = WsReply.snapshot
    ∧ handle_ws_message "ping" = WsReply.text "pong"
    ∧ (∀ data : String, data ≠ "get_status" → data ≠ "ping" →
      handle_ws_message data = WsReply.text ("Echo: " ++ data)) := by
  refine ⟨rfl, rfl, ?_⟩
  intro data h1 h2
  simp [handle_ws_message, h1, h2]

/-- Claim C9, witness for the amended theorem at the input "abc". -/
theorem C9_witness :
    handle_ws_message "abc" = WsReply.text ("Echo: " ++ "abc") :=
  C9_ws_dispatch.2.2 "abc" (by decide) (by decide)

/-- Claim C10, confirmed.  After a successful `/sync`, every
the stored state of every registered relay equals the level read from its pin,
so an immediately repeated `/sync` (no hardware change: the pin table
is part of the carried state) reports an empty change list with
`total_changes = 0` and returns the state unchanged. -/
theorem C10_sync_idempotent (s : Sys) (hinit : s.gpio_initialized = true) :
    ∃ r1 s1, sync_states s = Except.ok (r1, s1)
    ∧ (∀ e ∈ RELAY_NAMES, s1.relay_states e.1 = levelToState (GPIO_input s1.gpio e.2.pin))
    ∧ sync_states s1 = Except.ok (⟨"GPIO states synchronized", [], 0⟩, s1) := by
  obtain ⟨r1, s1, heq, _, _, _, hact, _, _, hg, _, _, hgi⟩ := sync_states_spec s hinit
  have hact1 : ∀ e ∈ RELAY_NAMES,
      s1.relay_states e.1 = levelToState (GPIO_input s1.gpio e.2.pin) := by
    intro e he
    rw [hg]
    exact hact e he
  have hinit1 : s1.gpio_initialized = true := by rw [hgi]; exact hinit
  exact ⟨r1, s1, heq, hact1, sync_states_nodrift s1 hinit1 hact1⟩

/-- Claim C10, witness at the nominal state. -/
theorem C10_witness :
    ∃ r1 s1, sync_states s0 = Except.ok (r1, s1)
    ∧ (∀ e ∈ RELAY_NAMES, s1.relay_states e.1 = levelToState (GPIO_input s1.gpio e.2.pin))
    ∧ sync_states s1 = Except.ok (⟨"GPIO states synchronized", [], 0⟩, s1) :=
  C10_sync_idempotent s0 rfl
